import Mathlib

/-!
Shallow embedding of the appointment booking system (TypeScript / Express /
PostgreSQL).  Instants are modelled as integers counting milliseconds since
the Unix epoch, mirroring the JavaScript Date.getTime() representation; all
date arithmetic from the date-fns library used by the code is spelled out on
that representation.  The server clock is modelled as running in UTC (the
deployment configuration of the service), so the local wall-clock fields of
a Date coincide with its UTC fields.  The IANA timezone database consulted
by date-fns-tz is abstracted as a function from zone names to the fixed UTC
offset (in milliseconds) of that zone at the instants under consideration;
daylight-saving transitions inside a single generated range are outside the
scope of the claims treated here.
-/

namespace BookingSystem

/-- Milliseconds per minute. -/
def msPerMinute : Int := 60000

/-- Milliseconds per hour. -/
def msPerHour : Int := 3600000

/-- Milliseconds per day. -/
def msPerDay : Int := 86400000

/-- Model of date-fns addHours on epoch-millisecond instants. -/
def addHours (d h : Int) : Int := d + h * msPerHour

/-- Model of date-fns addDays on epoch-millisecond instants. -/
def addDays (d n : Int) : Int := d + n * msPerDay

/-- Model of date-fns addMinutes on epoch-millisecond instants. -/
def addMinutes (d m : Int) : Int := d + m * msPerMinute

/-- Model of date-fns isAfter: the first instant is strictly after the second. -/
def isAfter (a b : Int) : Bool := decide (b < a)

/-- Model of date-fns isBefore: the first instant is strictly before the second. -/
def isBefore (a b : Int) : Bool := decide (a < b)

/-- Model of date-fns startOfDay for a UTC server clock: truncate the instant
to midnight of its calendar day (floor division by the day length). -/
def startOfDay (d : Int) : Int := msPerDay * Int.fdiv d msPerDay

/-- Model of date-fns endOfDay for a UTC server clock: the last millisecond
(23:59:59.999) of the calendar day of the instant. -/
def endOfDay (d : Int) : Int := startOfDay d + (msPerDay - 1)

/-- Model of date-fns getDay for a UTC server clock: day of week with
0 = Sunday.  Epoch day zero, 1970-01-01, was a Thursday (weekday 4). -/
def getDay (d : Int) : Int := Int.emod (Int.fdiv d msPerDay + 4) 7

/-- Model of Date.setHours(h, m, 0, 0) for a UTC server clock: keep the
calendar day of the instant and set the time of day to h:m:00.000. -/
def setHours (d h m : Int) : Int := startOfDay d + h * msPerHour + m * msPerMinute

/-- Model of date-fns-tz zonedTimeToUtc: reinterpret the wall-clock fields of
an instant as wall-clock time in a zone whose UTC offset is offsetMs
(local = utc + offsetMs), yielding the corresponding UTC instant. -/
def zonedTimeToUtc (wall offsetMs : Int) : Int := wall - offsetMs

/-- Model of the JavaScript String.prototype.split with a single-character
separator, on the character list of the string: split at every occurrence of
the separator, keeping empty pieces. -/
def splitCharAux (sep : Char) : List Char → List Char → List (List Char)
  | [], acc => [acc.reverse]
  | c :: cs, acc =>
    if c == sep then acc.reverse :: splitCharAux sep cs []
    else splitCharAux sep cs (c :: acc)

/-- Split a string at every occurrence of a separator character. -/
def splitChar (sep : Char) (s : String) : List (List Char) :=
  splitCharAux sep s.data []

/-- Model of the JavaScript parseInt(piece, 10) on the pieces produced by
splitting a rule time string: a nonempty all-digit piece parses to its
decimal value, anything else is NaN (modelled as none).  On the zero-padded
digit pieces accepted by the availability-rule validation schema this agrees
with parseInt exactly. -/
def parseIntDec (cs : List Char) : Option Nat :=
  match cs with
  | [] => none
  | _ =>
    if cs.all (fun c => c.isDigit) then
      some (cs.foldl (fun n c => 10 * n + (c.toNat - 48)) 0)
    else none

/-- Embedding of TimeUtils.timeStringToUTC (src/utils/timeUtils.ts).  Splits
the HH:MM or HH:MM:SS string, reads the hour and minute fields, applies them
to the given date with setHours and converts from the zone to UTC.  The tzdb
parameter abstracts the timezone database used by date-fns-tz.  The thrown
exception of the source (malformed time string) is modelled as none. -/
def timeStringToUTC (tzdb : String → Int) (timeString : String) (date : Int)
    (timezone : String) : Option Int :=
  let timeParts := splitChar ':' timeString
  if timeParts.length < 2 || timeParts.length > 3 then
    none
  else
    match (timeParts.get? 0).bind parseIntDec, (timeParts.get? 1).bind parseIntDec with
    | some hours, some minutes =>
        some (zonedTimeToUtc (setHours date hours minutes) (tzdb timezone))
    | _, _ => none

/-- Embedding of TimeUtils.meetsLeadTime.  The evaluation instant now, read
from the system clock in the source, is passed explicitly. -/
def meetsLeadTime (now slotStart : Int) : Bool :=
  isAfter slotStart (addHours now 2)

/-- Embedding of TimeUtils.withinBookingHorizon. -/
def withinBookingHorizon (now slotStart : Int) : Bool :=
  isBefore slotStart (addDays now 14)

/-- Embedding of TimeUtils.meetsCancellationNotice. -/
def meetsCancellationNotice (now slotStart : Int) : Bool :=
  isAfter slotStart (addHours now 12)

/-- Embedding of TimeUtils.slotsOverlap, with the two slot records flattened
into their start and end instants: slot1 = [s1, e1), slot2 = [s2, e2). -/
def slotsOverlap (s1 e1 s2 e2 : Int) : Bool :=
  isBefore s1 e2 && isAfter e1 s2

/-- Embedding of the AvailabilityRule row fields used by slot generation
(src/models/schemas.ts). -/
structure AvailabilityRule where
  day_of_week : Int
  start_time : String
  end_time : String
  interval_minutes : Int
  timezone : String
deriving DecidableEq, Repr

/-- Embedding of the booked-slot pairs passed to generateSlotsForDate. -/
structure BookedSlot where
  slot_start : Int
  slot_end : Int
deriving DecidableEq, Repr

/-- Embedding of the TimeSlot interface (src/models/schemas.ts).  The field
named end in the source is called endT here because end is a Lean keyword. -/
structure TimeSlot where
  start : Int
  endT : Int
  available : Bool
deriving DecidableEq, Repr

/-- Embedding of the while loop inside TimeUtils.generateSlotsForDate for one
rule: step a cursor from the resolved rule start, emit [cursor, cursor +
interval) slots tagged with their availability, stop when the cursor reaches
the resolved rule end or the next slot would overflow it.  The loop of the
source is a while loop; here it takes an explicit fuel argument, which
generateSlotsForDate instantiates with an upper bound on the number of
iterations (for a positive interval the cursor strictly increases each step,
so the loop of the source terminates and the fuel is never exhausted). -/
def slotLoop (now : Int) (bookedSlots : List BookedSlot) (slotEnd interval : Int) :
    Nat → Int → List TimeSlot
  | 0, _ => []
  | fuel + 1, currentSlot =>
    if isBefore currentSlot slotEnd then
      let slotEndTime := addMinutes currentSlot interval
      if isAfter slotEndTime slotEnd then
        []
      else
        { start := currentSlot, endT := slotEndTime,
          available := meetsLeadTime now currentSlot &&
            withinBookingHorizon now currentSlot &&
            !(bookedSlots.any (fun booking =>
                slotsOverlap currentSlot slotEndTime booking.slot_start booking.slot_end)) }
          :: slotLoop now bookedSlots slotEnd interval fuel slotEndTime
    else []

/-- Fuel bound for slotLoop: for an interval of at least one minute the loop
body runs at most (slotEnd - slotStart) / (interval in ms) + 1 times. -/
def slotFuel (slotStart slotEnd interval : Int) : Nat :=
  (slotEnd - slotStart).toNat / ((interval * msPerMinute).toNat.max 1) + 1

/-- Stable insertion of a slot into a list sorted by ascending start instant;
a slot inserted later is placed after slots with an equal start, matching the
stable Array.prototype.sort of the source. -/
def insertByStart (x : TimeSlot) : List TimeSlot → List TimeSlot
  | [] => [x]
  | y :: ys => if x.start < y.start then x :: y :: ys else y :: insertByStart x ys

/-- Model of slots.sort((a, b) => a.start.getTime() - b.start.getTime()):
stable sort by ascending start instant. -/
def sortByStart (slots : List TimeSlot) : List TimeSlot :=
  slots.foldr insertByStart []

/-- Slots contributed by a single availability rule inside
TimeUtils.generateSlotsForDate: resolve the wall-clock start and end of the
rule to UTC for the target date, then run the slot loop.  A malformed rule
time (an exception in the source) propagates as none. -/
def ruleSlots (tzdb : String → Int) (now date : Int) (bookedSlots : List BookedSlot)
    (rule : AvailabilityRule) : Option (List TimeSlot) := do
  let slotStart ← timeStringToUTC tzdb rule.start_time date rule.timezone
  let slotEnd ← timeStringToUTC tzdb rule.end_time date rule.timezone
  pure (slotLoop now bookedSlots slotEnd rule.interval_minutes
    (slotFuel slotStart slotEnd rule.interval_minutes) slotStart)

/-- Concatenation of the per-rule slot lists of generateSlotsForDate, in rule
order, mirroring the pushes into the shared slots array of the source. -/
def genRules (tzdb : String → Int) (now date : Int) (bookedSlots : List BookedSlot) :
    List AvailabilityRule → Option (List TimeSlot)
  | [] => some []
  | rule :: rest => do
    let first ← ruleSlots tzdb now date bookedSlots rule
    let others ← genRules tzdb now date bookedSlots rest
    pure (first ++ others)

/-- Embedding of TimeUtils.generateSlotsForDate: keep the rules whose
day_of_week equals the weekday of the target date, expand each into slots,
and sort the result by ascending start instant.  The hostTimezone parameter
of the source signature is unused by its body (each rule uses its own
timezone field) and is omitted. -/
def generateSlotsForDate (tzdb : String → Int) (now date : Int)
    (availabilityRules : List AvailabilityRule) (bookedSlots : List BookedSlot) :
    Option (List TimeSlot) :=
  let dayOfWeek := getDay date
  let rulesForDay := availabilityRules.filter (fun rule => rule.day_of_week == dayOfWeek)
  (genRules tzdb now date bookedSlots rulesForDay).map sortByStart

/-- Ceiling division for a positive divisor, modelling Math.ceil(a / b) on
exact integer inputs; the division is Euclidean (floor, for a positive
divisor). -/
def ceilDiv (a b : Int) : Int := (a + b - 1) / b

/-- Embedding of TimeUtils.validateDateRange.  The source takes the two query
strings and applies parseISO; the query schema restricts them to YYYY-MM-DD,
which parseISO maps to midnight UTC of that date, so the embedding takes the
parsed instants directly.  A thrown error is modelled as none; on success the
source returns startOfDay(from) and endOfDay(to). -/
def validateDateRange (fromDate toDate : Int) : Option (Int × Int) :=
  if isAfter fromDate toDate then
    none
  else if ceilDiv (toDate - fromDate) msPerDay > 14 then
    none
  else
    some (startOfDay fromDate, endOfDay toDate)

/-- Embedding of the while loop of TimeUtils.generateDateRange, with fuel as
for slotLoop (the cursor advances by one day per iteration). -/
def dateLoop (endDate : Int) : Nat → Int → List Int
  | 0, _ => []
  | fuel + 1, currentDate =>
    if isAfter currentDate endDate then []
    else currentDate :: dateLoop endDate fuel (addDays currentDate 1)

/-- Embedding of TimeUtils.generateDateRange: every calendar-day start from
startOfDay(from) up to and including startOfDay(to). -/
def generateDateRange (fromDate toDate : Int) : List Int :=
  let start := startOfDay fromDate
  let endDate := startOfDay toDate
  dateLoop endDate ((endDate - start).toNat / 86400000 + 1) start

/-- Model of TimeUtils.formatInTimezone with the pattern HH:mm: the hour of
day and minute of the instant rendered in a zone with UTC offset offsetMs. -/
def formatHM (utcDate offsetMs : Int) : Int × Int :=
  let localDate := utcDate + offsetMs
  (Int.emod (Int.fdiv localDate msPerHour) 24,
   Int.emod (Int.fdiv localDate msPerMinute) 60)

/-- Embedding of BookingUtils.validateBookingSlot.  The source throws the
first violated constraint as an Error; the embedding returns the message of
that error, and none when no constraint is violated.  The source compares
durationMinutes = durationMs / 60000 (an exact IEEE division of an integer
millisecond count) against 15 and 480; for integer millisecond counts below
2^53 those comparisons agree exactly with the integer comparisons of
durationMs against 900000 and 28800000 used here. -/
def validateBookingSlot (now slotStart slotEnd : Int) : Option String :=
  if !(meetsLeadTime now slotStart) then
    some "Booking must be at least 2 hours in advance"
  else if !(withinBookingHorizon now slotStart) then
    some "Booking cannot be more than 14 days in advance"
  else
    if slotEnd - slotStart < 15 * msPerMinute then
      some "Slot duration must be at least 15 minutes"
    else if slotEnd - slotStart > 480 * msPerMinute then
      some "Slot duration cannot exceed 8 hours"
    else if !(isAfter slotEnd slotStart) then
      some "Slot end time must be after start time"
    else
      none

/-- Lifecycle status of a booking row (the status column of the bookings
table, CHECK status IN (confirmed, cancelled)). -/
inductive BookingStatus where
  | confirmed
  | cancelled
deriving DecidableEq, Repr

/-- Embedding of a row of the bookings table (migrations/init.sql); the
created_at column is not consulted by any route handler and is omitted. -/
structure Booking where
  id : Int
  user_id : Int
  booking_id : String
  cancel_code : String
  name : String
  email : String
  slot_start : Int
  slot_end : Int
  status : BookingStatus
deriving DecidableEq, Repr

/-- Embedding of the SQL overlap condition of the POST /book handler
(src/routes/booking.ts), evaluated on one bookings row: s and e are the
requested slot start ($2) and end ($3), slot_start and slot_end the columns
of the row. -/
def sqlOverlapCond (slot_start slot_end s e : Int) : Bool :=
  (decide (slot_start ≤ s) && decide (slot_end > s)) ||
  (decide (slot_start < e) && decide (slot_end ≥ e)) ||
  (decide (slot_start ≥ s) && decide (slot_end ≤ e))

/-- Row predicate of the conflict SELECT of the POST /book handler: same
user, status confirmed, and the SQL overlap condition. -/
def bookConflictRow (userId s e : Int) (b : Booking) : Bool :=
  b.user_id == userId && b.status == BookingStatus.confirmed &&
    sqlOverlapCond b.slot_start b.slot_end s e

/-- Outcome of the POST /book handler: a 400 validation rejection carrying
the thrown message, the 409 conflict rejection (SlotAlreadyBooked), or the
201 creation of a booking row. -/
inductive BookResult where
  | validationError (msg : String)
  | slotAlreadyBooked
  | created (b : Booking)
deriving DecidableEq, Repr

/-- Embedding of the POST /book handler run to completion against a bookings
table modelled as a list of rows (in insertion order): validate the slot,
reject with 409 when the conflict SELECT returns at least one row, otherwise
insert a confirmed row.  The generated UUID and cancel code (and the serial
row id) are modelled as inputs, matching the injected-randomness reading of
the design. -/
def book (now : Int) (st : List Booking) (userId slotStart slotEnd rowId : Int)
    (bookingId cancelCode nameStr emailStr : String) : BookResult × List Booking :=
  match validateBookingSlot now slotStart slotEnd with
  | some msg => (BookResult.validationError msg, st)
  | none =>
    if 0 < (st.filter (bookConflictRow userId slotStart slotEnd)).length then
      (BookResult.slotAlreadyBooked, st)
    else
      let b : Booking :=
        { id := rowId, user_id := userId, booking_id := bookingId,
          cancel_code := cancelCode, name := nameStr, email := emailStr,
          slot_start := slotStart, slot_end := slotEnd,
          status := BookingStatus.confirmed }
      (BookResult.created b, st ++ [b])

/-- Outcome of the POST /cancel handler: the 404, the two 400 rejections, the
401 rejection, or the 200 success. -/
inductive CancelResult where
  | notFound
  | alreadyCancelled
  | invalidCancelCode
  | tooLateToCancel
  | success
deriving DecidableEq, Repr

/-- Embedding of the UPDATE bookings SET status = cancelled WHERE id = rowId
statement of the POST /cancel handler. -/
def cancelUpdate (st : List Booking) (rowId : Int) : List Booking :=
  st.map (fun b => if b.id == rowId then { b with status := BookingStatus.cancelled } else b)

/-- Embedding of the POST /cancel handler run to completion: look the booking
up by public id (the SELECT returns rows in table order and the handler takes
the first), then check, in order, already-cancelled status, cancel code
(case-sensitive string equality), and the cancellation-notice policy, and on
success update the status of the row. -/
def cancel (now : Int) (st : List Booking) (bookingId cancelCode : String) :
    CancelResult × List Booking :=
  match st.find? (fun b => b.booking_id == bookingId) with
  | none => (CancelResult.notFound, st)
  | some b =>
    if b.status == BookingStatus.cancelled then
      (CancelResult.alreadyCancelled, st)
    else if !(b.cancel_code == cancelCode) then
      (CancelResult.invalidCancelCode, st)
    else if !(meetsCancellationNotice now b.slot_start) then
      (CancelResult.tooLateToCancel, st)
    else
      (CancelResult.success, cancelUpdate st b.id)

/-- Inputs of one booking request in the concurrency model. -/
structure BookReq where
  userId : Int
  slotStart : Int
  slotEnd : Int
  rowId : Int
  bookingId : String
  cancelCode : String
  name : String
  email : String
deriving DecidableEq, Repr

/-- Row inserted for a booking request. -/
def mkBooking (r : BookReq) : Booking :=
  { id := r.rowId, user_id := r.userId, booking_id := r.bookingId,
    cancel_code := r.cancelCode, name := r.name, email := r.email,
    slot_start := r.slotStart, slot_end := r.slotEnd,
    status := BookingStatus.confirmed }

/-- Check step of the POST /book handler in isolation: the conflict SELECT
returns no row. -/
def overlapCheckPasses (st : List Booking) (r : BookReq) : Bool :=
  (st.filter (bookConflictRow r.userId r.slotStart r.slotEnd)).length == 0

/-- Database-level guard at insert time: the partial unique index
idx_bookings_no_overlap of migrations/init.sql on (user_id, slot_start,
slot_end) WHERE status = confirmed rejects the INSERT exactly when a
confirmed row with the identical column triple already exists. -/
def uniqueIndexBlocks (st : List Booking) (r : BookReq) : Bool :=
  st.any (fun b => b.user_id == r.userId && decide (b.slot_start = r.slotStart) &&
    decide (b.slot_end = r.slotEnd) && b.status == BookingStatus.confirmed)

/-- Insert step of the POST /book handler: the INSERT commits unless the
unique index rejects it. -/
def insertBooking (st : List Booking) (r : BookReq) : Option (List Booking) :=
  if uniqueIndexBlocks st r then none else some (st ++ [mkBooking r])

/-- Run the insert step of a request whose check step had outcome passed:
a request that failed validation or saw a conflict does not insert; an
insert rejected by the unique index fails the request. -/
def insertStepRun (passed : Bool) (st : List Booking) (r : BookReq) :
    Bool × List Booking :=
  if passed then
    match insertBooking st r with
    | some st2 => (true, st2)
    | none => (false, st)
  else (false, st)

/-- Interleaved execution of two booking requests in which both conflict
SELECTs run before either INSERT, an interleaving the handler permits: the
two queries of the handler are separate await points with no enclosing
transaction.  Returns the success flag of each request and the final table. -/
def interleavedBook (now : Int) (st0 : List Booking) (r1 r2 : BookReq) :
    (Bool × Bool) × List Booking :=
  let chk1 := (validateBookingSlot now r1.slotStart r1.slotEnd == none) &&
    overlapCheckPasses st0 r1
  let chk2 := (validateBookingSlot now r2.slotStart r2.slotEnd == none) &&
    overlapCheckPasses st0 r2
  let s1 := insertStepRun chk1 st0 r1
  let s2 := insertStepRun chk2 s1.2 r2
  ((s1.1, s2.1), s2.2)

/-- Invariant of the data model: no two confirmed bookings of the same owner
overlap under the half-open overlap predicate. -/
def NoDoubleBook (st : List Booking) : Prop :=
  List.Pairwise (fun b1 b2 => b1.user_id = b2.user_id →
    b1.status = BookingStatus.confirmed → b2.status = BookingStatus.confirmed →
    slotsOverlap b1.slot_start b1.slot_end b2.slot_start b2.slot_end = false) st

/-- Row invariant enforced by the CHECK (slot_end > slot_start) constraint of
the bookings table. -/
def WellFormedBookings (st : List Booking) : Prop :=
  ∀ b ∈ st, b.slot_start < b.slot_end

/-- Timezone database fragment for the example scenario: America/New_York in
summer is UTC-4 (eastern daylight time), offset -14400000 ms. -/
def nycOffset : String → Int :=
  fun z => if z == "America/New_York" then -14400000 else 0

/-- Target Monday of the example scenario: epoch day 20255 (a Monday, since
day 4 was the first Monday after the epoch and 20255 = 4 mod 7), as a
midnight-UTC instant. -/
def c5date : Int := 20255 * 86400000

/-- Evaluation instant of the example scenario: two days before the target
Monday, far enough ahead for the lead-time rule and inside the horizon. -/
def c5now : Int := c5date - 2 * 86400000

/-- Availability rule of the example scenario: Monday 09:00 to 17:00, 30
minute slots, America/New_York. -/
def c5rule : AvailabilityRule :=
  { day_of_week := 1, start_time := "09:00", end_time := "17:00",
    interval_minutes := 30, timezone := "America/New_York" }

/-- Expected slot list of the example scenario: sixteen available 30-minute
slots; 09:00 eastern daylight time on the target Monday is 13:00 UTC, which
is instant 1750078800000. -/
def c5expected : List TimeSlot :=
  (List.range 16).map (fun i =>
    { start := 1750078800000 + 1800000 * (i : Int),
      endT := 1750080600000 + 1800000 * (i : Int), available := true })

/-- First concurrent booking request of the race scenario: owner 1, slot
from 10h00m to 10h30m after the epoch (the evaluation instant is 0, so the
slot satisfies lead time and horizon). -/
def c2r1 : BookReq :=
  { userId := 1, slotStart := 36000000, slotEnd := 37800000, rowId := 1,
    bookingId := "b1", cancelCode := "AAAAAA", name := "n", email := "e" }

/-- Second concurrent booking request of the race scenario: same owner,
overlapping slot from 10h15m to 10h45m, a distinct (start, end) pair. -/
def c2r2 : BookReq :=
  { userId := 1, slotStart := 36900000, slotEnd := 38700000, rowId := 2,
    bookingId := "b2", cancelCode := "BBBBBB", name := "n", email := "e" }

/-- Zone database for the flag-formula witness scenario: everything UTC. -/
def c3zone : String → Int := fun _ => 0

/-- Availability rule for the flag-formula witness scenario: epoch day zero
was a Thursday (weekday 4), rule 00:30 to 01:30 UTC, 30 minute slots. -/
def c3rule : AvailabilityRule :=
  { day_of_week := 4, start_time := "00:30", end_time := "01:30",
    interval_minutes := 30, timezone := "UTC" }

/-- Existing confirmed reservation of the flag-formula witness scenario,
covering the first generated slot. -/
def c3booked : List BookedSlot := [{ slot_start := 1800000, slot_end := 3600000 }]

/-- Generated slots of the flag-formula witness scenario. -/
def c3slots : List TimeSlot :=
  [{ start := 1800000, endT := 3600000, available := false },
   { start := 3600000, endT := 5400000, available := false }]

/-- Confirmed booking row used by the invariant witness scenario. -/
def c1row : Booking :=
  { id := 1, user_id := 1, booking_id := "X", cancel_code := "CODE11",
    name := "n", email := "e", slot_start := 36000000, slot_end := 37800000,
    status := BookingStatus.confirmed }

/-- Bookings table of the invariant witness scenario. -/
def c1state : List Booking := [c1row]

/-- Bookings table of the cancellation witness scenario: one confirmed
booking whose start is far enough ahead of the evaluation instant 0 for the
cancellation-notice rule. -/
def c8state : List Booking :=
  [{ id := 1, user_id := 7, booking_id := "B", cancel_code := "SECRET",
     name := "n", email := "e", slot_start := 100000000, slot_end := 101800000,
     status := BookingStatus.confirmed }]

/-- Arithmetic reading of meetsLeadTime: strictly after now plus two hours. -/
theorem meetsLeadTime_true_iff (now s : Int) :
    meetsLeadTime now s = true ↔ now + 7200000 < s := by
  unfold meetsLeadTime isAfter addHours msPerHour
  simp only [decide_eq_true_eq]
  omega

/-- Arithmetic reading of withinBookingHorizon: strictly before now plus
fourteen days. -/
theorem withinBookingHorizon_true_iff (now s : Int) :
    withinBookingHorizon now s = true ↔ s < now + 1209600000 := by
  unfold withinBookingHorizon isBefore addDays msPerDay
  simp only [decide_eq_true_eq]
  omega

/-- Arithmetic reading of meetsCancellationNotice: strictly after now plus
twelve hours. -/
theorem meetsCancellationNotice_true_iff (now s : Int) :
    meetsCancellationNotice now s = true ↔ now + 43200000 < s := by
  unfold meetsCancellationNotice isAfter addHours msPerHour
  simp only [decide_eq_true_eq]
  omega

/-- Equivalence of the SQL overlap condition of the booking route with the
half-open overlap predicate, for rows and requests with positive length. -/
theorem sqlOverlapCond_true_iff (bs be s e : Int) (hrow : bs < be) (hreq : s < e) :
    (sqlOverlapCond bs be s e = true ↔ slotsOverlap bs be s e = true) := by
  unfold sqlOverlapCond slotsOverlap isBefore isAfter
  simp only [Bool.or_eq_true, Bool.and_eq_true, decide_eq_true_eq]
  omega

/-- Characterization of a passing validateBookingSlot run. -/
theorem validateBookingSlot_none_iff (now s e : Int) :
    validateBookingSlot now s e = none ↔
      (meetsLeadTime now s = true ∧ withinBookingHorizon now s = true ∧
        900000 ≤ e - s ∧ e - s ≤ 28800000) := by
  unfold validateBookingSlot
  split_ifs with h1 h2 h3 h4 h5 <;>
    simp_all [isAfter, msPerMinute, decide_eq_true_eq] <;>
    omega

/-- C7: the SQL overlap condition of the POST /book route — (slot_start <=
start AND slot_end > start) OR (slot_start < end AND slot_end >= end) OR
(slot_start >= start AND slot_end <= end) — agrees, on intervals whose end
is strictly after their start, with the half-open overlap predicate
slotsOverlap used by the slot generator. -/
theorem C7_sql_overlap_equivalence (s e bs be : Int) (hrow : bs < be) (hreq : s < e) :
    sqlOverlapCond bs be s e = slotsOverlap bs be s e := by
  have h := sqlOverlapCond_true_iff bs be s e hrow hreq
  cases hsql : sqlOverlapCond bs be s e <;> cases hov : slotsOverlap bs be s e <;>
    simp_all

/-- Witness for C7 at a concrete overlapping pair. -/
theorem C7_sql_overlap_equivalence_witness :
    sqlOverlapCond 0 10 5 15 = slotsOverlap 0 10 5 15 :=
  C7_sql_overlap_equivalence 5 15 0 10 (by decide) (by decide)

/-- C4: boundary semantics of the temporal policy predicates.  Each predicate
is a strict comparison against its threshold (first three conjuncts and the
boundary instances), and — once the lead-time and horizon gates pass — the
duration portion of validateBookingSlot accepts exactly the closed range
from 15 to 480 minutes, which forces end strictly after start; exactly 15
and exactly 480 minutes are accepted while 14 minutes 59 seconds and 481
minutes are rejected. -/
theorem C4_policy_boundary_semantics (now s e : Int) :
    (meetsLeadTime now s = true → withinBookingHorizon now s = true →
      ((validateBookingSlot now s e = none) ↔
        (s < e ∧ 900000 ≤ e - s ∧ e - s ≤ 28800000))) ∧
    (meetsLeadTime now s = decide (now + 7200000 < s)) ∧
    (withinBookingHorizon now s = decide (s < now + 1209600000)) ∧
    (meetsCancellationNotice now s = decide (now + 43200000 < s)) ∧
    meetsLeadTime now (now + 7200000) = false ∧
    meetsLeadTime now (now + 7200001) = true ∧
    withinBookingHorizon now (now + 1209600000) = false ∧
    withinBookingHorizon now (now + 1209599999) = true ∧
    meetsCancellationNotice now (now + 43200000) = false ∧
    meetsCancellationNotice now (now + 43200001) = true ∧
    validateBookingSlot 0 10800000 (10800000 + 900000) = none ∧
    validateBookingSlot 0 10800000 (10800000 + 899000) =
      some "Slot duration must be at least 15 minutes" ∧
    validateBookingSlot 0 10800000 (10800000 + 28800000) = none ∧
    validateBookingSlot 0 10800000 (10800000 + 28860000) =
      some "Slot duration cannot exceed 8 hours" := by
  refine ⟨?_, ?_, ?_, ?_, ?_, ?_, ?_, ?_, ?_, ?_, by decide, by decide, by decide, by decide⟩
  · intro hlt hbh
    rw [validateBookingSlot_none_iff]
    simp only [hlt, hbh, true_and]
    omega
  · unfold meetsLeadTime isAfter addHours msPerHour
    exact decide_eq_decide.mpr (by omega)
  · unfold withinBookingHorizon isBefore addDays msPerDay
    exact decide_eq_decide.mpr (by omega)
  · unfold meetsCancellationNotice isAfter addHours msPerHour
    exact decide_eq_decide.mpr (by omega)
  · have h : ¬(meetsLeadTime now (now + 7200000) = true) := by
      rw [meetsLeadTime_true_iff]; omega
    simpa using h
  · rw [meetsLeadTime_true_iff]; omega
  · have h : ¬(withinBookingHorizon now (now + 1209600000) = true) := by
      rw [withinBookingHorizon_true_iff]; omega
    simpa using h
  · rw [withinBookingHorizon_true_iff]; omega
  · have h : ¬(meetsCancellationNotice now (now + 43200000) = true) := by
      rw [meetsCancellationNotice_true_iff]; omega
    simpa using h
  · rw [meetsCancellationNotice_true_iff]; omega

/-- Witness for C4 at a concrete instant with the policy gates satisfied. -/
theorem C4_policy_boundary_semantics_witness :
    (validateBookingSlot 0 10800000 11700000 = none) ↔
      ((10800000 : Int) < 11700000 ∧ (900000 : Int) ≤ 11700000 - 10800000 ∧
        (11700000 : Int) - 10800000 ≤ 28800000) :=
  (C4_policy_boundary_semantics 0 10800000 11700000).1 (by decide) (by decide)

/-- C10: the final end-after-start branch of validateBookingSlot is
unreachable — the function never returns that message, because an interval
whose end is not strictly after its start is rejected earlier, by the
lead-time, horizon, or minimum-duration check. -/
theorem C10_end_after_start_check_unreachable (now s e : Int) :
    ((validateBookingSlot now s e == some "Slot end time must be after start time") = false) ∧
    (e ≤ s →
      validateBookingSlot now s e = some "Booking must be at least 2 hours in advance" ∨
      validateBookingSlot now s e = some "Booking cannot be more than 14 days in advance" ∨
      validateBookingSlot now s e = some "Slot duration must be at least 15 minutes") := by
  constructor
  · unfold validateBookingSlot
    split_ifs with h1 h2 h3 h4 h5
    · decide
    · decide
    · decide
    · decide
    · exfalso
      simp only [isAfter, Bool.not_eq_true', decide_eq_false_iff_not, msPerMinute] at h3 h5
      omega
    · decide
  · intro hle
    unfold validateBookingSlot
    split_ifs with h1 h2 h3 h4 h5
    · exact Or.inl rfl
    · exact Or.inr (Or.inl rfl)
    · exact Or.inr (Or.inr rfl)
    · exfalso
      simp only [msPerMinute] at h3
      omega
    · exfalso
      simp only [msPerMinute] at h3
      omega
    · exfalso
      simp only [msPerMinute] at h3
      omega

/-- Witness for C10: a degenerate interval is rejected by the
minimum-duration check, not by the final branch. -/
theorem C10_end_after_start_check_unreachable_witness :
    validateBookingSlot 0 36000000 36000000 = some "Booking must be at least 2 hours in advance" ∨
    validateBookingSlot 0 36000000 36000000 = some "Booking cannot be more than 14 days in advance" ∨
    validateBookingSlot 0 36000000 36000000 = some "Slot duration must be at least 15 minutes" :=
  (C10_end_after_start_check_unreachable 0 36000000 36000000).2 (by decide)

/-- C5: the example scenario — rule Monday 09:00 to 17:00 with 30 minute
interval in America/New_York, a target Monday with no reservations, and an
evaluation instant two days (well) before that Monday — produces exactly the
sixteen expected 30-minute slots, all available, with the first rendered
locally as 09:00 to 09:30 and the last as 16:30 to 17:00. -/
theorem C5_monday_newyork_scenario :
    generateSlotsForDate nycOffset c5now c5date [c5rule] [] = some c5expected ∧
    c5expected.length = 16 ∧
    c5expected.all (fun ts => ts.available && (ts.endT - ts.start == 1800000)) = true ∧
    c5expected.head? = some { start := 1750078800000, endT := 1750080600000, available := true } ∧
    c5expected.getLast? = some { start := 1750105800000, endT := 1750107600000, available := true } ∧
    formatHM 1750078800000 (-14400000) = (9, 0) ∧
    formatHM 1750080600000 (-14400000) = (9, 30) ∧
    formatHM 1750105800000 (-14400000) = (16, 30) ∧
    formatHM 1750107600000 (-14400000) = (17, 0) := by
  decide

/-- C2 evidence: the check-check-insert-insert interleaving of two valid,
overlapping booking requests of the same owner commits both.  The conflict
SELECT of each request runs before either INSERT, each SELECT sees no
conflicting row, and the partial unique index on (user_id, slot_start,
slot_end) does not block the second INSERT because the two column triples
differ — so both rows end up confirmed, violating the exactly-one-wins
guarantee. -/
theorem C2_interleaved_double_commit :
    validateBookingSlot 0 c2r1.slotStart c2r1.slotEnd = none ∧
    validateBookingSlot 0 c2r2.slotStart c2r2.slotEnd = none ∧
    slotsOverlap c2r1.slotStart c2r1.slotEnd c2r2.slotStart c2r2.slotEnd = true ∧
    (interleavedBook 0 [] c2r1 c2r2).1 = (true, true) ∧
    (interleavedBook 0 [] c2r1 c2r2).2 = [mkBooking c2r1, mkBooking c2r2] ∧
    ((interleavedBook 0 [] c2r1 c2r2).2.filter
      (fun b => b.user_id == 1 && b.status == BookingStatus.confirmed)).length = 2 := by
  decide

/-- C6: every slot emitted by the generation loop has length exactly the
rule interval, ends no later than the resolved rule end (no overflowing slot
is ever emitted), and starts on the cursor arithmetic progression stepped by
the interval from the loop entry point. -/
theorem C6_slot_cursor_no_overflow (now : Int) (bookedSlots : List BookedSlot)
    (slotEnd interval : Int) (fuel : Nat) (cursor : Int) (ts : TimeSlot)
    (hmem : ts ∈ slotLoop now bookedSlots slotEnd interval fuel cursor) :
    ts.endT = addMinutes ts.start interval ∧ isAfter ts.endT slotEnd = false ∧
      ∃ k : Nat, ts.start = addMinutes cursor (interval * k) := by
  induction fuel generalizing cursor with
  | zero => simp [slotLoop] at hmem
  | succ n ih =>
    rw [slotLoop] at hmem
    by_cases hb : isBefore cursor slotEnd = true
    · rw [if_pos hb] at hmem
      by_cases ha : isAfter (addMinutes cursor interval) slotEnd = true
      · rw [if_pos ha] at hmem
        simp at hmem
      · rw [if_neg ha] at hmem
        rcases List.mem_cons.mp hmem with hts | hts
        · subst hts
          refine ⟨rfl, ?_, 0, ?_⟩
          · simpa using ha
          · simp [addMinutes]
        · obtain ⟨h1, h2, k, hk⟩ := ih (addMinutes cursor interval) hts
          refine ⟨h1, h2, k + 1, ?_⟩
          rw [hk]
          unfold addMinutes
          push_cast
          ring
    · rw [if_neg hb] at hmem
      simp at hmem

/-- Witness for C6 on a concrete loop run: rule range of 70 minutes with a
30 minute interval, whose second potential slot fits but third would
overflow. -/
theorem C6_slot_cursor_no_overflow_witness :
    (1800000 : Int) = addMinutes 0 30 ∧ isAfter 1800000 4200000 = false ∧
      ∃ k : Nat, (0 : Int) = addMinutes 0 (30 * k) :=
  C6_slot_cursor_no_overflow 0 [] 4200000 30 3 0
    { start := 0, endT := 1800000, available := false } (by decide)

/-- Availability flag of every slot emitted by the generation loop, stated
in terms of the fields of the slot itself. -/
theorem slotLoop_available (now : Int) (bookedSlots : List BookedSlot)
    (slotEnd interval : Int) (fuel : Nat) (cursor : Int) (ts : TimeSlot)
    (hmem : ts ∈ slotLoop now bookedSlots slotEnd interval fuel cursor) :
    ts.available = (meetsLeadTime now ts.start && withinBookingHorizon now ts.start &&
      !(bookedSlots.any (fun booking =>
        slotsOverlap ts.start ts.endT booking.slot_start booking.slot_end))) := by
  induction fuel generalizing cursor with
  | zero => simp [slotLoop] at hmem
  | succ n ih =>
    rw [slotLoop] at hmem
    by_cases hb : isBefore cursor slotEnd = true
    · rw [if_pos hb] at hmem
      by_cases ha : isAfter (addMinutes cursor interval) slotEnd = true
      · rw [if_pos ha] at hmem
        simp at hmem
      · rw [if_neg ha] at hmem
        rcases List.mem_cons.mp hmem with hts | hts
        · subst hts
          rfl
        · exact ih (addMinutes cursor interval) hts
    · rw [if_neg hb] at hmem
      simp at hmem

/-- Membership in the stable insertion step of the sort. -/
theorem mem_insertByStart (x a : TimeSlot) (l : List TimeSlot) :
    a ∈ insertByStart x l ↔ a = x ∨ a ∈ l := by
  induction l with
  | nil => simp [insertByStart]
  | cons y ys ih =>
    unfold insertByStart
    split_ifs with h
    · simp [List.mem_cons]
    · simp only [List.mem_cons, ih]
      tauto

/-- Sorting by start instant preserves membership. -/
theorem mem_sortByStart (a : TimeSlot) (l : List TimeSlot) :
    a ∈ sortByStart l ↔ a ∈ l := by
  unfold sortByStart
  induction l with
  | nil => simp
  | cons x xs ih =>
    simp [List.foldr_cons, mem_insertByStart, ih]

/-- Availability flag of every slot contributed by a single rule. -/
theorem ruleSlots_available (tzdb : String → Int) (now date : Int)
    (bookedSlots : List BookedSlot) (rule : AvailabilityRule) (l : List TimeSlot)
    (h : ruleSlots tzdb now date bookedSlots rule = some l)
    (ts : TimeSlot) (hts : ts ∈ l) :
    ts.available = (meetsLeadTime now ts.start && withinBookingHorizon now ts.start &&
      !(bookedSlots.any (fun booking =>
        slotsOverlap ts.start ts.endT booking.slot_start booking.slot_end))) := by
  unfold ruleSlots at h
  cases hs : timeStringToUTC tzdb rule.start_time date rule.timezone with
  | none => rw [hs] at h; simp at h
  | some s0 =>
    rw [hs] at h
    cases he : timeStringToUTC tzdb rule.end_time date rule.timezone with
    | none => rw [he] at h; simp at h
    | some e0 =>
      rw [he] at h
      simp only [Option.bind_eq_bind, Option.some_bind, Option.pure_def,
        Option.some.injEq] at h
      subst h
      exact slotLoop_available now bookedSlots e0 rule.interval_minutes _ s0 ts hts

/-- Availability flag of every slot produced across a list of rules. -/
theorem genRules_available (tzdb : String → Int) (now date : Int)
    (bookedSlots : List BookedSlot) :
    ∀ (rules : List AvailabilityRule) (l : List TimeSlot),
      genRules tzdb now date bookedSlots rules = some l →
      ∀ ts ∈ l, ts.available = (meetsLeadTime now ts.start &&
        withinBookingHorizon now ts.start &&
        !(bookedSlots.any (fun booking =>
          slotsOverlap ts.start ts.endT booking.slot_start booking.slot_end))) := by
  intro rules
  induction rules with
  | nil =>
    intro l h ts hts
    simp only [genRules, Option.some.injEq] at h
    subst h
    simp at hts
  | cons r rs ih =>
    intro l h ts hts
    unfold genRules at h
    cases hf : ruleSlots tzdb now date bookedSlots r with
    | none => rw [hf] at h; simp at h
    | some first =>
      rw [hf] at h
      cases ho : genRules tzdb now date bookedSlots rs with
      | none => rw [ho] at h; simp at h
      | some others =>
        rw [ho] at h
        simp only [Option.bind_eq_bind, Option.some_bind, Option.pure_def,
          Option.some.injEq] at h
        subst h
        rcases List.mem_append.mp hts with hin | hin
        · exact ruleSlots_available tzdb now date bookedSlots r first hf ts hin
        · exact ih others ho ts hin

/-- C3: every slot produced by the generator carries the availability flag
meetsLeadTime AND withinBookingHorizon AND NOT overlapsAny, where the
overlap test is the half-open predicate s1 < e2 AND e1 > s2, under which
intervals that merely touch at an endpoint do not conflict. -/
theorem C3_availability_flag_formula (tzdb : String → Int) (now date : Int)
    (rules : List AvailabilityRule) (bookedSlots : List BookedSlot)
    (slots : List TimeSlot)
    (hgen : generateSlotsForDate tzdb now date rules bookedSlots = some slots) :
    (∀ ts ∈ slots, ts.available = (meetsLeadTime now ts.start &&
      withinBookingHorizon now ts.start &&
      !(bookedSlots.any (fun booking =>
        slotsOverlap ts.start ts.endT booking.slot_start booking.slot_end)))) ∧
    (∀ s1 e1 s2 e2 : Int, slotsOverlap s1 e1 s2 e2 = (decide (s1 < e2) && decide (s2 < e1))) ∧
    (∀ a b c : Int, slotsOverlap a b b c = false) := by
  refine ⟨?_, ?_, ?_⟩
  · intro ts hts
    unfold generateSlotsForDate at hgen
    rw [Option.map_eq_some'] at hgen
    obtain ⟨l0, hg, hsort⟩ := hgen
    rw [← hsort, mem_sortByStart] at hts
    exact genRules_available tzdb now date bookedSlots _ l0 hg ts hts
  · intro s1 e1 s2 e2
    rfl
  · intro a b c
    simp [slotsOverlap, isBefore, isAfter]

/-- Witness for C3 on a concrete generation whose first slot is blocked by
an existing reservation (flag false, matching the formula). -/
theorem C3_availability_flag_formula_witness :
    (false : Bool) = (meetsLeadTime 0 1800000 && withinBookingHorizon 0 1800000 &&
      !(c3booked.any (fun booking =>
        slotsOverlap 1800000 3600000 booking.slot_start booking.slot_end))) :=
  (C3_availability_flag_formula c3zone 0 0 [c3rule] c3booked c3slots (by decide)).1
    { start := 1800000, endT := 3600000, available := false } (by decide)

/-- Lookup by public id commutes with the status update of a cancellation:
the update changes no booking_id, so the first matching row is the same row,
with its status rewritten when its row id is the updated one. -/
theorem find?_cancelUpdate (st : List Booking) (rid : Int) (pid : String) :
    (cancelUpdate st rid).find? (fun x => x.booking_id == pid) =
      (st.find? (fun x => x.booking_id == pid)).map
        (fun b => if b.id == rid then { b with status := BookingStatus.cancelled } else b) := by
  induction st with
  | nil => rfl
  | cons b bs ih =>
    have hbid : ((if b.id == rid then { b with status := BookingStatus.cancelled } else b) :
        Booking).booking_id = b.booking_id := by
      by_cases h : (b.id == rid) = true <;> simp [h]
    unfold cancelUpdate at ih ⊢
    simp only [List.map_cons, List.find?]
    rw [hbid]
    cases hpb : (b.booking_id == pid) with
    | false => exact ih
    | true => rfl

/-- Status update of a cancellation preserves the no-double-booking
invariant: it only moves rows out of the confirmed state. -/
theorem noDoubleBook_cancelUpdate (st : List Booking) (rid : Int) (h : NoDoubleBook st) :
    NoDoubleBook (cancelUpdate st rid) := by
  unfold NoDoubleBook cancelUpdate at *
  refine List.Pairwise.map _ ?_ h
  intro a b hab h1 h2 h3
  by_cases ha : (a.id == rid) = true <;> by_cases hb2 : (b.id == rid) = true <;>
    simp [ha, hb2] at h1 h2 h3 ⊢ <;>
    exact hab h1 h2 h3

/-- Cancellation preserves the no-double-booking invariant on every path. -/
theorem cancel_preserves_noDoubleBook (now : Int) (st : List Booking) (pid code : String)
    (h : NoDoubleBook st) : NoDoubleBook (cancel now st pid code).2 := by
  unfold cancel
  cases hf : st.find? (fun x => x.booking_id == pid) with
  | none => exact h
  | some b =>
    dsimp only
    split_ifs with h1 h2 h3
    · exact h
    · exact h
    · exact h
    · exact noDoubleBook_cancelUpdate st b.id h

/-- C8: the cancellation handler applies its checks in exactly the order
not-found, already-cancelled, cancel-code, cancellation-notice, and a
successful cancellation followed by a second attempt on the same public id
yields AlreadyCancelled with the stored status observed as cancelled. -/
theorem C8_cancel_check_order (now now2 : Int) (st : List Booking) (pid code code2 : String) :
    (st.find? (fun x => x.booking_id == pid) = none →
      cancel now st pid code = (CancelResult.notFound, st)) ∧
    (∀ b, st.find? (fun x => x.booking_id == pid) = some b →
      (b.status = BookingStatus.cancelled →
        cancel now st pid code = (CancelResult.alreadyCancelled, st)) ∧
      (b.status = BookingStatus.confirmed → ¬(b.cancel_code = code) →
        cancel now st pid code = (CancelResult.invalidCancelCode, st)) ∧
      (b.status = BookingStatus.confirmed → b.cancel_code = code →
        meetsCancellationNotice now b.slot_start = false →
        cancel now st pid code = (CancelResult.tooLateToCancel, st)) ∧
      (b.status = BookingStatus.confirmed → b.cancel_code = code →
        meetsCancellationNotice now b.slot_start = true →
        cancel now st pid code = (CancelResult.success, cancelUpdate st b.id))) ∧
    ((cancel now st pid code).1 = CancelResult.success →
      cancel now2 (cancel now st pid code).2 pid code2 =
        (CancelResult.alreadyCancelled, (cancel now st pid code).2) ∧
      ∀ b2, (cancel now st pid code).2.find? (fun x => x.booking_id == pid) = some b2 →
        b2.status = BookingStatus.cancelled) := by
  refine ⟨?_, ?_, ?_⟩
  · intro hn
    unfold cancel
    rw [hn]
  · intro b hb
    refine ⟨?_, ?_, ?_, ?_⟩
    · intro h1
      unfold cancel
      rw [hb]
      simp [h1]
    · intro h1 h2
      have hst : (b.status == BookingStatus.cancelled) = false := by rw [h1]; rfl
      have hcc : (b.cancel_code == code) = false := by
        simp only [beq_eq_false_iff_ne, ne_eq]
        exact h2
      unfold cancel
      rw [hb]
      simp [hst, hcc]
    · intro h1 h2 h3
      have hst : (b.status == BookingStatus.cancelled) = false := by rw [h1]; rfl
      have hcc : (b.cancel_code == code) = true := by simp [h2]
      unfold cancel
      rw [hb]
      simp [hst, hcc, h3]
    · intro h1 h2 h3
      have hst : (b.status == BookingStatus.cancelled) = false := by rw [h1]; rfl
      have hcc : (b.cancel_code == code) = true := by simp [h2]
      unfold cancel
      rw [hb]
      simp [hst, hcc, h3]
  · intro hs
    cases hf : st.find? (fun x => x.booking_id == pid) with
    | none =>
      unfold cancel at hs
      rw [hf] at hs
      simp at hs
    | some b =>
      have hred : cancel now st pid code =
          (if (b.status == BookingStatus.cancelled) = true then
            (CancelResult.alreadyCancelled, st)
          else if (!(b.cancel_code == code)) = true then
            (CancelResult.invalidCancelCode, st)
          else if (!(meetsCancellationNotice now b.slot_start)) = true then
            (CancelResult.tooLateToCancel, st)
          else (CancelResult.success, cancelUpdate st b.id)) := by
        unfold cancel
        rw [hf]
      rw [hred] at hs ⊢
      by_cases h1 : (b.status == BookingStatus.cancelled) = true
      · rw [if_pos h1] at hs
        simp at hs
      · rw [if_neg h1] at hs ⊢
        by_cases h2 : (!(b.cancel_code == code)) = true
        · rw [if_pos h2] at hs
          simp at hs
        · rw [if_neg h2] at hs ⊢
          by_cases h3 : (!(meetsCancellationNotice now b.slot_start)) = true
          · rw [if_pos h3] at hs
            simp at hs
          · rw [if_neg h3] at hs ⊢
            dsimp only
            have hb2 : (cancelUpdate st b.id).find? (fun x => x.booking_id == pid) =
                some { b with status := BookingStatus.cancelled } := by
              rw [find?_cancelUpdate, hf]
              simp
            constructor
            · unfold cancel
              rw [hb2]
              simp
            · intro b2 hb2m
              rw [hb2] at hb2m
              simp only [Option.some.injEq] at hb2m
              rw [← hb2m]

/-- Witness for C8: cancelling a concrete booking succeeds once, and
cancelling it again with the same code reports AlreadyCancelled and leaves
the table unchanged. -/
theorem C8_cancel_check_order_witness :
    cancel 0 (cancel 0 c8state "B" "SECRET").2 "B" "SECRET" =
      (CancelResult.alreadyCancelled, (cancel 0 c8state "B" "SECRET").2) :=
  ((C8_cancel_check_order 0 0 c8state "B" "SECRET" "SECRET").2.2 (by decide)).1

/-- Booking preserves the no-double-booking and positive-length invariants:
a rejected request leaves the table unchanged, and an inserted row has been
checked against every confirmed row of the same owner. -/
theorem book_preserves_invariants (now : Int) (st : List Booking)
    (userId slotStart slotEnd rowId : Int) (bid cc nm em : String)
    (hInv : NoDoubleBook st) (hWF : WellFormedBookings st) :
    NoDoubleBook (book now st userId slotStart slotEnd rowId bid cc nm em).2 ∧
    WellFormedBookings (book now st userId slotStart slotEnd rowId bid cc nm em).2 := by
  unfold book
  cases hv : validateBookingSlot now slotStart slotEnd with
  | some msg => exact ⟨hInv, hWF⟩
  | none =>
    split_ifs with hc
    · exact ⟨hInv, hWF⟩
    · have hbounds := (validateBookingSlot_none_iff now slotStart slotEnd).mp hv
      have hse : slotStart < slotEnd := by omega
      have hfil : st.filter (bookConflictRow userId slotStart slotEnd) = [] := by
        rcases hq : st.filter (bookConflictRow userId slotStart slotEnd) with _ | ⟨x, xs⟩
        · rfl
        · exfalso
          apply hc
          rw [hq]
          simp
      have hnone : ∀ x ∈ st, ¬(bookConflictRow userId slotStart slotEnd x = true) :=
        fun x hx => List.filter_eq_nil_iff.mp hfil x hx
      constructor
      · unfold NoDoubleBook
        rw [List.pairwise_append]
        refine ⟨hInv, List.pairwise_singleton _ _, ?_⟩
        intro x hx y hy
        rw [List.mem_singleton] at hy
        subst hy
        intro huid hxc hyc
        have huid2 : x.user_id = userId := huid
        have hx_wf := hWF x hx
        by_contra hov
        rw [Bool.not_eq_false] at hov
        apply hnone x hx
        have h1 : (x.user_id == userId) = true := by simp [huid2]
        have h2 : (x.status == BookingStatus.confirmed) = true := by rw [hxc]; rfl
        have h3 : sqlOverlapCond x.slot_start x.slot_end slotStart slotEnd = true :=
          (sqlOverlapCond_true_iff _ _ _ _ hx_wf hse).mpr hov
        unfold bookConflictRow
        simp [h1, h2, h3]
      · intro b hb
        rcases List.mem_append.mp hb with hb | hb
        · exact hWF b hb
        · rw [List.mem_singleton] at hb
          subst hb
          simpa using hse

/-- Booking with an interval that overlaps an existing confirmed reservation
of the same owner is rejected with SlotAlreadyBooked and writes no row. -/
theorem book_rejects_overlap (now : Int) (st : List Booking)
    (userId slotStart slotEnd rowId : Int) (bid cc nm em : String)
    (hWF : WellFormedBookings st)
    (hv : validateBookingSlot now slotStart slotEnd = none)
    (hex : ∃ b ∈ st, b.user_id = userId ∧ b.status = BookingStatus.confirmed ∧
      slotsOverlap b.slot_start b.slot_end slotStart slotEnd = true) :
    book now st userId slotStart slotEnd rowId bid cc nm em =
      (BookResult.slotAlreadyBooked, st) := by
  obtain ⟨b0, hb0, huid, hconf, hov⟩ := hex
  have hse : slotStart < slotEnd := by
    have := (validateBookingSlot_none_iff now slotStart slotEnd).mp hv
    omega
  have hcond : bookConflictRow userId slotStart slotEnd b0 = true := by
    have h1 : (b0.user_id == userId) = true := by simp [huid]
    have h2 : (b0.status == BookingStatus.confirmed) = true := by rw [hconf]; rfl
    have h3 : sqlOverlapCond b0.slot_start b0.slot_end slotStart slotEnd = true :=
      (sqlOverlapCond_true_iff _ _ _ _ (hWF b0 hb0) hse).mpr hov
    unfold bookConflictRow
    simp [h1, h2, h3]
  have hlen : 0 < (st.filter (bookConflictRow userId slotStart slotEnd)).length := by
    have hmem : b0 ∈ st.filter (bookConflictRow userId slotStart slotEnd) :=
      List.mem_filter.mpr ⟨hb0, hcond⟩
    exact List.length_pos.mpr (List.ne_nil_of_mem hmem)
  unfold book
  rw [hv, if_pos hlen]

/-- C1: the no-double-booking invariant — no two confirmed reservations of
the same owner overlap — is preserved by booking and by cancellation, and a
booking request whose interval overlaps an existing confirmed reservation of
that owner (after passing validation) is rejected with SlotAlreadyBooked,
leaving the table unchanged. -/
theorem C1_no_double_booking_invariant (now now2 : Int) (st : List Booking)
    (userId slotStart slotEnd rowId : Int) (bid cc nm em pid code : String)
    (hInv : NoDoubleBook st) (hWF : WellFormedBookings st) :
    NoDoubleBook (book now st userId slotStart slotEnd rowId bid cc nm em).2 ∧
    WellFormedBookings (book now st userId slotStart slotEnd rowId bid cc nm em).2 ∧
    NoDoubleBook (cancel now2 st pid code).2 ∧
    (validateBookingSlot now slotStart slotEnd = none →
      (∃ b ∈ st, b.user_id = userId ∧ b.status = BookingStatus.confirmed ∧
        slotsOverlap b.slot_start b.slot_end slotStart slotEnd = true) →
      book now st userId slotStart slotEnd rowId bid cc nm em =
        (BookResult.slotAlreadyBooked, st)) :=
  ⟨(book_preserves_invariants now st userId slotStart slotEnd rowId bid cc nm em hInv hWF).1,
   (book_preserves_invariants now st userId slotStart slotEnd rowId bid cc nm em hInv hWF).2,
   cancel_preserves_noDoubleBook now2 st pid code hInv,
   fun hv hex =>
     book_rejects_overlap now st userId slotStart slotEnd rowId bid cc nm em hWF hv hex⟩

/-- Witness for C1: against a table holding one confirmed booking, a second
overlapping request of the same owner is rejected with SlotAlreadyBooked and
the invariant still holds afterwards. -/
theorem C1_no_double_booking_invariant_witness :
    NoDoubleBook (book 0 c1state 1 36900000 38700000 2 "Y" "CODE22" "n" "e").2 ∧
    book 0 c1state 1 36900000 38700000 2 "Y" "CODE22" "n" "e" =
      (BookResult.slotAlreadyBooked, c1state) := by
  have hwf : WellFormedBookings c1state := by
    intro b hb
    simp only [c1state, List.mem_singleton] at hb
    subst hb
    decide
  have h := C1_no_double_booking_invariant 0 0 c1state 1 36900000 38700000 2
    "Y" "CODE22" "n" "e" "p" "c" (List.pairwise_singleton _ _) hwf
  exact ⟨h.1, h.2.2.2 (by decide) ⟨c1row, by decide⟩⟩

/-- Truncation to the start of day fixes whole-day instants. -/
theorem startOfDay_whole (a : Int) : startOfDay (a * msPerDay) = a * msPerDay := by
  unfold startOfDay
  rw [Int.mul_fdiv_cancel a (by norm_num [msPerDay])]
  ring

/-- Unrolling of the date loop over a whole-day range: it emits exactly one
entry per calendar day from the start day to the end day inclusive. -/
theorem dateLoop_range (n : Nat) : ∀ a : Int,
    dateLoop ((a + n) * msPerDay) (n + 1) (a * msPerDay) =
      (List.range (n + 1)).map (fun (i : Nat) => (a + (i : Int)) * msPerDay) := by
  induction n with
  | zero =>
    intro a
    have hcond : ¬(isAfter (a * msPerDay) ((a + ((0 : Nat) : Int)) * msPerDay) = true) := by
      simp [isAfter]
    rw [dateLoop, if_neg hcond]
    rw [show List.range 1 = [0] from rfl]
    simp only [dateLoop, List.map_cons, List.map_nil, Nat.cast_zero, add_zero]
  | succ m ih =>
    intro a
    have hcond : ¬(isAfter (a * msPerDay) ((a + ((m + 1 : Nat) : Int)) * msPerDay) = true) := by
      simp only [isAfter, decide_eq_true_eq, msPerDay]
      push_cast
      omega
    rw [dateLoop, if_neg hcond]
    have haddday : addDays (a * msPerDay) 1 = (a + 1) * msPerDay := by
      unfold addDays
      ring
    have hend : (a + ((m + 1 : Nat) : Int)) * msPerDay = ((a + 1) + (m : Int)) * msPerDay := by
      push_cast
      ring
    rw [haddday, hend, ih (a + 1)]
    conv_rhs => rw [List.range_succ_eq_map]
    simp only [List.map_cons, List.map_map]
    congr 1
    · norm_num
    · apply List.map_congr_left
      intro i hi
      simp only [Function.comp_apply]
      push_cast
      ring

/-- C9 (amended): a query with from after to is rejected; on whole-day
instants the query is rejected exactly when to is more than 14 days after
from — so an inclusive range of up to 15 calendar dates is accepted — and an
accepted whole-day range generates exactly the calendar dates from from to
to inclusive. -/
theorem C9_date_range_guard :
    (∀ f t : Int, t < f → validateDateRange f t = none) ∧
    (∀ a b : Int, a ≤ b →
      (validateDateRange (a * msPerDay) (b * msPerDay) = none ↔ 14 < b - a)) ∧
    (∀ a b : Int, a ≤ b → b - a ≤ 14 →
      generateDateRange (a * msPerDay) (b * msPerDay) =
        (List.range (b - a + 1).toNat).map (fun (i : Nat) => (a + (i : Int)) * msPerDay)) := by
  refine ⟨?_, ?_, ?_⟩
  · intro f t h
    unfold validateDateRange
    have hc : isAfter f t = true := by simp [isAfter, h]
    rw [hc]
    simp
  · intro a b hab
    unfold validateDateRange
    have hcond : ¬(isAfter (a * msPerDay) (b * msPerDay) = true) := by
      simp only [isAfter, decide_eq_true_eq, msPerDay]
      omega
    rw [if_neg hcond]
    have hdd : ceilDiv (b * msPerDay - a * msPerDay) msPerDay = b - a := by
      unfold ceilDiv msPerDay
      omega
    rw [hdd]
    split_ifs with h
    · exact iff_of_true rfl h
    · exact iff_of_false (by simp) h
  · intro a b hab hle
    obtain ⟨n, rfl⟩ : ∃ n : Nat, b = a + n := ⟨(b - a).toNat, by omega⟩
    simp only [generateDateRange]
    rw [startOfDay_whole a, startOfDay_whole (a + (n : Int))]
    have hfuel : ((a + (n : Int)) * msPerDay - a * msPerDay).toNat / 86400000 + 1 = n + 1 := by
      have h1 : (a + (n : Int)) * msPerDay - a * msPerDay = (n : Int) * 86400000 := by
        unfold msPerDay
        ring
      rw [h1]
      omega
    rw [hfuel]
    have hton : (a + (n : Int) - a + 1).toNat = n + 1 := by omega
    rw [hton]
    exact dateLoop_range n a

/-- Witness for C9 at the widest accepted whole-day range, from epoch day 0
to epoch day 14. -/
theorem C9_date_range_guard_witness :
    (validateDateRange (0 * msPerDay) (14 * msPerDay) = none ↔ 14 < (14 : Int) - 0) ∧
    generateDateRange (0 * msPerDay) (14 * msPerDay) =
      (List.range ((14 : Int) - 0 + 1).toNat).map (fun (i : Nat) => ((0 : Int) + (i : Int)) * msPerDay) :=
  ⟨C9_date_range_guard.2.1 0 14 (by decide), C9_date_range_guard.2.2 0 14 (by decide) (by decide)⟩

/-- Counterexample for C9 as stated: the inclusive range from epoch day 0 to
epoch day 14 contains 15 calendar dates — more than 14 — yet the query is
accepted, and the generator emits all 15 dates; the guard compares the
ceiling day difference (14 here) against 14. -/
theorem C9_fifteen_date_range_accepted :
    validateDateRange 0 1209600000 = some (0, 1295999999) ∧
    (generateDateRange 0 1209600000).length = 15 ∧
    ceilDiv (1209600000 - 0) msPerDay = 14 := by
  decide

end BookingSystem
